import Mathlib

/-!
# Verification of the French Spirit / Laduree dashboard (`dashboard.py`)

Shallow embedding of the data pipeline of `dashboard.py`:
column resolution, CSV ingestion, `Result` numeric coercion, multi-format
date parsing, `dropna`, sort + `drop_duplicates` deduplication, sidebar
filtering, and the per-chart data computations.  Pure Python/pandas
operations are translated into executable Lean functions; stateful
Streamlit rendering is modelled as a pure function from the cleaned
dataframe and the widget inputs to the chart datasets.
-/

namespace FrenchSpirit

/-! ## Column Resolver (dashboard.py lines 29-48) -/

/-- Header normalisation used by `find_column`:
`c.lower().replace(" ", "").replace("_", "")`, i.e. lowercase every
character then delete spaces and underscores. -/
def normChars (cs : List Char) : List Char :=
  (cs.map Char.toLower).filter (fun c => !(c == ' ' || c == '_'))

def normalizeHeader (s : String) : String := ⟨normChars s.data⟩

/-- `find_column(cols, target)`: builds `{norm(c): c for c in cols}` (a later
column with the same normalised form overwrites an earlier one, hence
`getLast?`) and looks up `norm(target)`. -/
def find_column (cols : List String) (target : String) : Option String :=
  (cols.filter (fun c => normalizeHeader c == normalizeHeader target)).getLast?

/-- The keys of the `expected` dict, in Python insertion (= iteration) order. -/
def expectedKeys : List String :=
  ["Country", "Store", "Audit Status", "Entity Id", "Employee Name",
   "Result", "Submitted For"]

/-- Canonical fields that `find_column` cannot resolve from `cols`,
in `expected`-iteration order. -/
def missingColumns (cols : List String) : List String :=
  expectedKeys.filter (fun k => (find_column cols k).isNone)

/-- The `for k in expected` loop body over a given key list: on the first
key with no matching column it stops with the `st.error` message; otherwise
it remaps each key to the actual header. -/
def resolveColumnsAux (cols : List String) :
    List String → Except String (List (String × String))
  | [] => .ok []
  | k :: ks =>
    match find_column cols k with
    | none => .error ("Missing required column: " ++ k)
    | some c => (resolveColumnsAux cols ks).map (fun rest => (k, c) :: rest)

/-- The `for k in expected` loop of dashboard.py lines 43-48. -/
def resolveColumns (cols : List String) :
    Except String (List (String × String)) :=
  resolveColumnsAux cols expectedKeys

/-- `true` iff the string `field` occurs as a substring of `err`
(used to express "the error message names the field"). -/
def beginsWithChars : List Char → List Char → Bool
  | [], _ => true
  | _ :: _, [] => false
  | n :: ns, h :: hs => n == h && beginsWithChars ns hs

def containsChars (needle : List Char) : List Char → Bool
  | [] => beginsWithChars needle []
  | h :: hs => beginsWithChars needle (h :: hs) || containsChars needle hs

def mentionsField (err field : String) : Bool :=
  containsChars field.data err.data

/-! ## Dates and `pd.to_datetime` with an explicit format (lines 53-60) -/

structure Date where
  year : Nat
  month : Nat
  day : Nat
deriving DecidableEq, Repr

/-- Encoding of a date as a sortable number (lexicographic y/m/d). -/
def Date.toNat (d : Date) : Nat := d.year * 10000 + d.month * 100 + d.day

def monthAbbrevs : List String :=
  ["jan", "feb", "mar", "apr", "may", "jun",
   "jul", "aug", "sep", "oct", "nov", "dec"]

def monthFullNames : List String :=
  ["january", "february", "march", "april", "may", "june",
   "july", "august", "september", "october", "november", "december"]

/-- How the month part of a format directive is written. -/
inductive MonthStyle
  | abbr     -- %b
  | full     -- %B
  | numeric  -- %m
deriving DecidableEq, Repr

/-- How the year part of a format directive is written. -/
inductive YearStyle
  | y2  -- %y
  | y4  -- %Y
deriving DecidableEq, Repr

/-- One `strptime`-style day/month/year format: a separator character,
a month style and a year style.  All five formats in dashboard.py line 54
are day-first. -/
structure FmtSpec where
  sep : Char
  monthStyle : MonthStyle
  yearStyle : YearStyle
deriving DecidableEq, Repr

/-- The ordered format list of line 54:
`["%d-%b-%y", "%d %B %Y", "%d/%m/%Y", "%d %b %Y", "%d-%B-%Y"]`. -/
def dateFormats : List FmtSpec :=
  [⟨'-', .abbr, .y2⟩, ⟨' ', .full, .y4⟩, ⟨'/', .numeric, .y4⟩,
   ⟨' ', .abbr, .y4⟩, ⟨'-', .full, .y4⟩]

def splitOnChar (sep : Char) : List Char → List (List Char)
  | [] => [[]]
  | c :: rest =>
    let r := splitOnChar sep rest
    if c == sep then [] :: r
    else
      match r with
      | [] => [[c]]
      | g :: gs => (c :: g) :: gs

def isDigitChar (c : Char) : Bool := '0' ≤ c && c ≤ '9'

/-- Value of a nonempty all-digit character group. -/
def digitsVal? (cs : List Char) : Option Nat :=
  if cs ≠ [] ∧ cs.all isDigitChar then
    some (cs.foldl (fun n c => n * 10 + (c.toNat - '0'.toNat)) 0)
  else none

/-- `%d`: one or two digits, value 1..31. -/
def parseDay (cs : List Char) : Option Nat :=
  if cs.length = 1 ∨ cs.length = 2 then
    match digitsVal? cs with
    | some d => if 1 ≤ d ∧ d ≤ 31 then some d else none
    | none => none
  else none

def lowerChars (cs : List Char) : List Char := cs.map Char.toLower

/-- Month names are matched case-insensitively, as in `strptime`. -/
def monthFromName (names : List String) (cs : List Char) : Option Nat :=
  match names.findIdx? (fun n => n.data == lowerChars cs) with
  | some i => some (i + 1)
  | none => none

def parseMonth : MonthStyle → List Char → Option Nat
  | .abbr, cs => monthFromName monthAbbrevs cs
  | .full, cs => monthFromName monthFullNames cs
  | .numeric, cs =>
    if cs.length = 1 ∨ cs.length = 2 then
      match digitsVal? cs with
      | some m => if 1 ≤ m ∧ m ≤ 12 then some m else none
      | none => none
    else none

/-- `%y`: exactly two digits; 00-68 map to 2000-2068, 69-99 to 1969-1999.
`%Y`: exactly four digits. -/
def parseYear : YearStyle → List Char → Option Nat
  | .y2, cs =>
    if cs.length = 2 then
      (digitsVal? cs).map (fun y => if y ≤ 68 then 2000 + y else 1900 + y)
    else none
  | .y4, cs =>
    if cs.length = 4 then digitsVal? cs else none

/-- Parse one string under one format (`strptime`-style, whole string
must match: exactly three separator-delimited groups). -/
def strptime (f : FmtSpec) (s : String) : Option Date :=
  match splitOnChar f.sep s.data with
  | [d, m, y] => do
    let day ← parseDay d
    let mon ← parseMonth f.monthStyle m
    let yr ← parseYear f.yearStyle y
    pure ⟨yr, mon, day⟩
  | _ => none

/-- The `Submitted For` column of the dataframe.  It starts as raw strings;
after the first `pd.to_datetime(..., errors='coerce')` assignment it has
datetime64 dtype (`NaT` = `none`), and `pd.to_datetime` on a datetime
column returns it unchanged, whatever `format` is passed. -/
inductive DateCol
  | raw : List String → DateCol
  | dt : List (Option Date) → DateCol
deriving DecidableEq

/-- `pd.to_datetime(col, format=f, errors='coerce')`. -/
def to_datetime (f : FmtSpec) : DateCol → DateCol
  | .raw vs => .dt (vs.map (strptime f))
  | .dt vs => .dt vs

/-- `col.notnull().sum()`.  Raw CSV string cells are never null. -/
def notnullSum : DateCol → Nat
  | .raw vs => vs.length
  | .dt vs => (vs.filter Option.isSome).length

/-- The `for fmt in [...]` loop of lines 54-60: reassign the column under
each format in turn, breaking once
`notnull().sum() > len(df) * 0.5` (`n` is `len(df)`, constant during the
loop; over naturals the float comparison is `n < 2 * count`). -/
def dateParseLoop (n : Nat) : List FmtSpec → DateCol → DateCol
  | [], col => col
  | f :: fs, col =>
    let col2 := to_datetime f col
    if n < 2 * notnullSum col2 then col2 else dateParseLoop n fs col2

def dateColVals : DateCol → List (Option Date)
  | .raw vs => vs.map (fun _ => none)
  | .dt vs => vs

/-- What the whole loop does to the `Submitted For` column of a dataframe
with `n = vals.length` rows. -/
def parseDatesColumn (vals : List String) : List (Option Date) :=
  dateColVals (dateParseLoop vals.length dateFormats (.raw vals))

/-! ## `pd.to_numeric(..., errors='coerce')` for `Result` (lines 50-51) -/

/-- Digit-group value as a rational. -/
def digitsValQ (cs : List Char) : ℚ :=
  cs.foldl (fun n c => n * 10 + ((c.toNat - '0'.toNat : Nat) : ℚ)) 0

/-- Decimal-literal parse: optional sign, integer digits, optional single
point and fraction digits; at least one digit overall. -/
def parseDecimal (cs : List Char) : Option ℚ :=
  let (sgn, body) : ℚ × List Char :=
    match cs with
    | '-' :: rest => (-1, rest)
    | '+' :: rest => (1, rest)
    | _ => (1, cs)
  match splitOnChar '.' body with
  | [ip] =>
    if ip ≠ [] ∧ ip.all isDigitChar then some (sgn * digitsValQ ip) else none
  | [ip, fp] =>
    if (ip ++ fp) ≠ [] ∧ ip.all isDigitChar ∧ fp.all isDigitChar then
      some (sgn * (digitsValQ ip + digitsValQ fp / (10 : ℚ) ^ fp.length))
    else none
  | _ => none

/-- `pd.to_numeric(value, errors='coerce')` on one CSV cell: surrounding
whitespace is tolerated, anything non-numeric becomes null. -/
def to_numeric (s : String) : Option ℚ :=
  parseDecimal (((s.data.dropWhile (· == ' ')).reverse.dropWhile (· == ' ')).reverse)

/-! ## Rows and the cleaning pipeline (lines 50-70) -/

/-- One row of the uploaded CSV, restricted to the seven canonical columns
(all CSV cells are strings). -/
structure RawRow where
  country : String
  store : String
  auditStatus : String
  entityId : String
  employeeName : String
  result : String
  submittedFor : String
deriving DecidableEq, Repr

/-- One dataframe row after `Result` coercion and date parsing:
`result` is numeric-or-null, `submittedFor` is datetime-or-NaT. -/
structure Row where
  country : String
  store : String
  auditStatus : String
  entityId : String
  employeeName : String
  result : Option ℚ
  submittedFor : Option Date
deriving DecidableEq, Repr

/-- Lines 50-60: coerce `Result` with `pd.to_numeric(..., errors='coerce')`
and run the date-format loop on the `Submitted For` column. -/
def cleanRows (rows : List RawRow) : List Row :=
  let dates := parseDatesColumn (rows.map (fun r => r.submittedFor))
  (rows.zip dates).map (fun p =>
    { country := p.1.country
      store := p.1.store
      auditStatus := p.1.auditStatus
      entityId := p.1.entityId
      employeeName := p.1.employeeName
      result := to_numeric p.1.result
      submittedFor := p.2 })

/-- Line 63: `df.dropna(subset=[Submitted For])`. -/
def dropnaSubmitted (rows : List Row) : List Row :=
  rows.filter (fun r => r.submittedFor.isSome)

/-! ## Sorting and deduplication (lines 65-70)

`sort_values([Country, Store, Employee Name, Submitted For])` followed by
`drop_duplicates(subset=[Country, Store, Employee Name], keep="first")`.
The sort is modelled as a stable sort on the lexicographic key
(Country, Store, Employee Name, Submitted For); pandas' default quicksort
may permute rows that are tied on the *whole* key, which is irrelevant to
every property proved here.  `NaT` sorts last (`na_position='last'`). -/

/-- Lexicographic `≤` on `List Nat`. -/
def lexLe : List Nat → List Nat → Bool
  | [], _ => true
  | _ :: _, [] => false
  | a :: as, b :: bs =>
    if a < b then true else if b < a then false else lexLe as bs

/-- Strings are compared by character code; shift by 1 so that the
group separator `0` sorts before any character. -/
def encStr (s : String) : List Nat := s.data.map (fun c => c.toNat + 1)

/-- `Submitted For` as a sort component; `NaT` sorts after any real date. -/
def dateKeyNat (d : Option Date) : Nat :=
  match d with
  | none => 100000000
  | some d => d.toNat

/-- The full `sort_values` key of line 66. -/
def sortKey (r : Row) : List Nat :=
  encStr r.country ++ 0 :: encStr r.store ++ 0 :: encStr r.employeeName
    ++ 0 :: [dateKeyNat r.submittedFor]

def rowle (a b : Row) : Prop := lexLe (sortKey a) (sortKey b) = true

instance : DecidableRel rowle := fun a b => by
  unfold rowle; infer_instance

/-- Line 66: `df.sort_values([...])`. -/
def sortRows (rows : List Row) : List Row := rows.insertionSort rowle

/-- The `drop_duplicates` subset key of line 68. -/
def groupKey (r : Row) : String × String × String :=
  (r.country, r.store, r.employeeName)

/-- `drop_duplicates(keep="first")` generalised over the keys already
seen: keep a row iff its key has not occurred before. -/
def dedupBy {κ : Type} [DecidableEq κ] (key : Row → κ) :
    List Row → List κ → List Row
  | [], _ => []
  | a :: as, seen =>
    if key a ∈ seen then dedupBy key as seen
    else a :: dedupBy key as (key a :: seen)

/-- Lines 67-70: `df.drop_duplicates(subset=[Country, Store, Employee Name],
keep="first")`. -/
def dedupRows (rows : List Row) : List Row := dedupBy groupKey rows []

/-- The whole cleaning pipeline of lines 50-70: coercion, date parsing,
`dropna`, sort, `drop_duplicates`. -/
def cleanedDataset (rows : List RawRow) : List Row :=
  dedupRows (sortRows (dropnaSubmitted (cleanRows rows)))

/-! ## Sidebar filtering (lines 91-94) -/

/-- `filtered_df = df[df[Country].isin(countries) & df[Store].isin(stores)]`. -/
def filteredDf (rows : List Row) (countries stores : List String) : List Row :=
  rows.filter (fun r => r.country ∈ countries && r.store ∈ stores)

/-! ## Statistics (lines 180-188) -/

/-- The non-null `Result` values of a row list (pandas aggregations skip
null values). -/
def nonNullResults (rows : List Row) : List ℚ :=
  rows.filterMap (fun r => r.result)

/-- `Series.mean()` over the non-null values (0 for the empty list, where
pandas yields NaN; never the case in any property below). -/
def qMean (l : List ℚ) : ℚ := l.sum / l.length

/-- `Series.std()`: the *sample* variance, denominator `n - 1`. -/
def sampleVar (l : List ℚ) : ℚ :=
  ((l.map (fun x => (x - qMean l) ^ 2)).sum) / ((l.length : ℚ) - 1)

/-- `s` is the sample standard deviation of `l`: the nonnegative square
root of the sample variance. -/
def IsSampleStd (l : List ℚ) (s : ℚ) : Prop := 0 ≤ s ∧ s * s = sampleVar l

def listMin (l : List ℚ) : ℚ :=
  match l with
  | [] => 0
  | x :: xs => xs.foldl min x

def listMax (l : List ℚ) : ℚ :=
  match l with
  | [] => 0
  | x :: xs => xs.foldl max x

/-- `np.linspace(a, b, n)`: `n` evenly spaced points from `a` to `b`
inclusive. -/
def linspace (a b : ℚ) (n : Nat) : List ℚ :=
  (List.range n).map (fun i : Nat => a + (b - a) * (i : ℚ) / ((n : ℚ) - 1))

/-- The data behind the probability-density overlay of lines 183-188:
the 500 x-coordinates and the two statistics fed to `norm.pdf`
(the standard deviation is carried as the sample variance, its square). -/
structure PdfChart where
  xs : List ℚ
  mean : ℚ
  varSample : ℚ
deriving DecidableEq

/-- Lines 182-188: the chart is rendered only when
`not filtered_df[Result].isnull().all()`, i.e. only when some non-null
`Result` exists in the filtered set. -/
def pdfChartOf (rows : List Row) : Option PdfChart :=
  let res := nonNullResults rows
  if res = [] then none
  else
    some { xs := linspace (listMin res) (listMax res) 500
           mean := qMean res
           varSample := sampleVar res }

/-! ## Per-chart data (lines 96-216)

Rendering is modelled as a pure function from the cleaned dataframe and
every widget value to the datasets behind the individual charts. -/

def listDedupStr2 : List (String × String) → List (String × String) → List (String × String)
  | [], _ => []
  | a :: as, seen =>
    if a ∈ seen then listDedupStr2 as seen
    else a :: listDedupStr2 as (a :: seen)

/-- Lines 103-107: `df[df[Store].isin(selected_stores_bar)]`, grouped by
(Store, Audit Status) with group sizes. -/
def stackedBarData (df : List Row) (selectedStoresBar : List String) :
    List ((String × String) × Nat) :=
  let rows := df.filter (fun r => r.store ∈ selectedStoresBar)
  (listDedupStr2 (rows.map (fun r => (r.store, r.auditStatus))) []).map
    (fun k => (k, (rows.filter (fun r => (r.store, r.auditStatus) = k)).length))

def storesOf (rows : List Row) : List String :=
  listDedupStr2 (rows.map (fun r => (r.store, ""))) [] |>.map (fun p => p.1)

/-- Lines 124-126: mean `Result` per store within the selected country
(row order is the group order; the descending sort of line 126 does not
change which pairs are present). -/
def storePerfData (df : List Row) (selectedCountryPerf : String) :
    List (String × ℚ) :=
  let rows := df.filter (fun r => r.country = selectedCountryPerf)
  (storesOf rows).map
    (fun s => (s, qMean (nonNullResults (rows.filter (fun r => r.store = s)))))

/-- Line 142: `country_df = df[df[Country] == selected_country]`, the data
behind the country drilldown histogram and table. -/
def countryDrillRows (df : List Row) (selectedCountry : String) : List Row :=
  df.filter (fun r => r.country = selectedCountry)

/-- Line 165: `store_df = df[df[Store] == selected_store]`. -/
def storeDrillRows (df : List Row) (selectedStore : String) : List Row :=
  df.filter (fun r => r.store = selectedStore)

/-- Every widget value read during one render pass. -/
structure RenderInputs where
  countries : List String
  stores : List String
  selectedStoresBar : List String
  selectedCountryPerf : String
  selectedCountry : String
  selectedStore : String
deriving DecidableEq

/-- The datasets behind the individual charts of one render pass. -/
structure RenderOutput where
  stackedBar : List ((String × String) × Nat)
  storePerf : List (String × ℚ)
  countryDrill : List Row
  storeDrill : List Row
  pdfChart : Option PdfChart
  meanVar : ℚ × ℚ
  strip : List Row
deriving DecidableEq

/-- One render pass of lines 91-216.  Only the probability-density chart,
the displayed mean/std figures and the strip chart read `filtered_df`;
every other chart reads `df` (filtered by its own widget, not by the
sidebar). -/
def render (df : List Row) (inp : RenderInputs) : RenderOutput :=
  let filtered := filteredDf df inp.countries inp.stores
  { stackedBar := stackedBarData df inp.selectedStoresBar
    storePerf := storePerfData df inp.selectedCountryPerf
    countryDrill := countryDrillRows df inp.selectedCountry
    storeDrill := storeDrillRows df inp.selectedStore
    pdfChart := pdfChartOf filtered
    meanVar := (qMean (nonNullResults filtered), sampleVar (nonNullResults filtered))
    strip := filtered }

/-! ## File upload (lines 17-27) -/

/-- `st.file_uploader(..., type=["csv"])`: the only accepted extension. -/
def uploaderAllowedTypes : List String := ["csv"]

/-- `st.selectbox("Select CSV delimiter", [",", ";", "\t", "|"], index=0)`. -/
def delimiterOptions : List String := [",", ";", "\t", "|"]

def defaultDelimiterIndex : Nat := 0

/-- `pd.read_csv(uploaded_file, sep=delimiter)`, as a plain split of the
content into lines and of each line into cells on the single selected
delimiter. -/
def read_csv (delim : Char) (content : String) : List (List String) :=
  (splitOnChar '\n' content.data).map
    (fun line => (splitOnChar delim line).map (fun cs => String.mk cs))

/-- Lines 22-24: parse the upload with the delimiter the user selected
(`","` by default); no other delimiter is ever tried. -/
def ingest (delimIndex : Nat) (content : String) : List (List String) :=
  read_csv (((delimiterOptions.getD delimIndex ",").data).headD ',') content

/-! ## The spec's reading of the date-parsing loop, for comparison -/

/-- The specification's description of the date step (spec §4.2):
"attempts the date field against an ordered list of known formats,
accepting the first format under which more than half the values parse" —
each format is tried against the *original* string values.  This is the
claimed behaviour, kept separate from `parseDatesColumn` (the code's
actual behaviour) so the two can be compared. -/
def specAcceptedFormat (vals : List String) : Option FmtSpec :=
  dateFormats.find? (fun f =>
    vals.length < 2 * ((vals.map (strptime f)).filter Option.isSome).length)

/-- The spec-described column result: parse every original value under the
accepted format; with no accepted format no value parses and every row is
dropped. -/
def specDateParseColumn (vals : List String) : List (Option Date) :=
  match specAcceptedFormat vals with
  | some f => vals.map (strptime f)
  | none => vals.map (fun _ => none)

/-! ## Concrete instances used in witnesses and counterexamples -/

/-- A cleaned-stage row (used to build small concrete datasets). -/
def mkRow (c s e : String) (res : Option ℚ) (d : Option Date) : Row :=
  { country := c, store := s, auditStatus := "Done", entityId := "1",
    employeeName := e, result := res, submittedFor := d }

/-- Raw upload with two submissions of the same employee of the same
store, dated `15-Jul-25` and `01-Jul-25` (spec §8 example). -/
def exDupRaw : List RawRow :=
  [⟨"AE", "S1", "Done", "9", "Alice", "80", "15-Jul-25"⟩,
   ⟨"AE", "S1", "Done", "9", "Alice", "70", "01-Jul-25"⟩]

/-- The cleaned-stage dataset of `exDupRaw` before sort/dedup. -/
def exDupRows : List Row := dropnaSubmitted (cleanRows exDupRaw)

/-- Filtered rows whose non-null results are `[70, 80, 90]`. -/
def exC8Rows : List Row :=
  [mkRow "AE" "S1" "A" (some 70) (some ⟨2025, 7, 1⟩),
   mkRow "AE" "S1" "B" (some 80) (some ⟨2025, 7, 2⟩),
   mkRow "AE" "S1" "C" (some 90) (some ⟨2025, 7, 3⟩)]

/-- The probability-density chart the code builds over `exC8Rows`. -/
def exC8Chart : PdfChart :=
  { xs := linspace 70 90 500, mean := 80, varSample := 100 }

/-- The cleaned row the deduplication keeps from `exDupRaw`
(`01-Jul-25` submission). -/
def exKeptRow : Row :=
  { country := "AE", store := "S1", auditStatus := "Done", entityId := "9",
    employeeName := "Alice", result := some 70,
    submittedFor := some ⟨2025, 7, 1⟩ }

/-- The cleaned row the deduplication drops from `exDupRaw`
(`15-Jul-25` submission). -/
def exLateRow : Row :=
  { country := "AE", store := "S1", auditStatus := "Done", entityId := "9",
    employeeName := "Alice", result := some 80,
    submittedFor := some ⟨2025, 7, 15⟩ }

/-- Raw upload whose single row has a parseable date but a non-numeric
`Result`. -/
def exNullResultRaw : List RawRow :=
  [⟨"AE", "S1", "Done", "9", "Bob", "n/a", "01-Jul-25"⟩]

/-- The cleaned form of the row of `exNullResultRaw`: retained, with a
null `Result`. -/
def exNullResultRow : Row :=
  { country := "AE", store := "S1", auditStatus := "Done", entityId := "9",
    employeeName := "Bob", result := none,
    submittedFor := some ⟨2025, 7, 1⟩ }

/-- A concrete widget-input combination. -/
def exInp : RenderInputs :=
  { countries := ["AE"], stores := ["S1"], selectedStoresBar := ["S1"],
    selectedCountryPerf := "AE", selectedCountry := "AE",
    selectedStore := "S1" }

/-- `exInp` with the sidebar Country/Store selections emptied and every
other widget unchanged. -/
def exInp2 : RenderInputs := { exInp with countries := [], stores := [] }

/-- Headers missing both `Country` and `Entity Id`. -/
def exTwoMissingCols : List String :=
  ["Store", "Audit Status", "Employee Name", "Result", "Submitted For"]

/-- Headers missing only `Entity Id`. -/
def exEntityIdMissingCols : List String :=
  ["Country", "Store", "Audit Status", "Employee Name", "Result",
   "Submitted For"]

/-! ## Supporting lemmas -/

theorem linspace_length (a b : ℚ) (n : Nat) : (linspace a b n).length = n := by
  unfold linspace; rw [List.length_map, List.length_range]

theorem linspace_head (a b : ℚ) (n : Nat) (h : 0 < n) :
    (linspace a b n).head? = some a := by
  obtain ⟨m, rfl⟩ := Nat.exists_eq_succ_of_ne_zero h.ne'
  simp [linspace, List.range_succ_eq_map]

theorem linspace_last (a b : ℚ) (n : Nat) (h : 1 < n) :
    (linspace a b n).getLast? = some b := by
  obtain ⟨m, rfl⟩ := Nat.exists_eq_succ_of_ne_zero (by omega : n ≠ 0)
  have hm : 0 < m := by omega
  have hmq : (m : ℚ) ≠ 0 := by exact_mod_cast hm.ne'
  simp only [linspace, List.range_succ, List.map_append, List.map_cons,
    List.map_nil, List.getLast?_concat]
  congr 1
  push_cast
  field_simp

theorem to_datetime_length (f : FmtSpec) (col : DateCol) :
    (dateColVals (to_datetime f col)).length = (dateColVals col).length := by
  cases col <;> simp [to_datetime, dateColVals]

theorem dateParseLoop_length (n : Nat) (fmts : List FmtSpec) (col : DateCol) :
    (dateColVals (dateParseLoop n fmts col)).length = (dateColVals col).length := by
  induction fmts generalizing col with
  | nil => rfl
  | cons f fs ih =>
    simp only [dateParseLoop]
    split
    · exact to_datetime_length f col
    · rw [ih (to_datetime f col), to_datetime_length]

theorem parseDatesColumn_length (vals : List String) :
    (parseDatesColumn vals).length = vals.length := by
  unfold parseDatesColumn
  rw [dateParseLoop_length]
  simp [dateColVals]

theorem cleanRows_length (rows : List RawRow) :
    (cleanRows rows).length = rows.length := by
  unfold cleanRows
  rw [List.length_map, List.length_zip, parseDatesColumn_length,
    List.length_map, Nat.min_self]

theorem lexLe_refl : ∀ xs : List Nat, lexLe xs xs = true
  | [] => rfl
  | a :: as => by simp [lexLe, lexLe_refl as]

theorem lexLe_total (xs ys : List Nat) : lexLe xs ys = true ∨ lexLe ys xs = true := by
  induction xs generalizing ys with
  | nil => exact Or.inl rfl
  | cons x xs ih =>
    cases ys with
    | nil => exact Or.inr rfl
    | cons y ys =>
      simp only [lexLe]
      rcases Nat.lt_trichotomy x y with h | h | h
      · left; simp [h]
      · subst h
        simpa [Nat.lt_irrefl] using ih ys
      · right; simp [h]

theorem lexLe_trans (xs ys zs : List Nat) (h1 : lexLe xs ys = true)
    (h2 : lexLe ys zs = true) : lexLe xs zs = true := by
  induction xs generalizing ys zs with
  | nil => rfl
  | cons x xs ih =>
    cases ys with
    | nil => simp [lexLe] at h1
    | cons y ys =>
      cases zs with
      | nil => simp [lexLe] at h2
      | cons z zs =>
        simp only [lexLe] at h1 h2 ⊢
        rcases Nat.lt_trichotomy x y with hxy | hxy | hxy
        · rcases Nat.lt_trichotomy y z with hyz | hyz | hyz
          · simp [Nat.lt_trans hxy hyz]
          · subst hyz; simp [hxy]
          · simp [Nat.lt_asymm hyz, hyz] at h2
        · subst hxy
          rcases Nat.lt_trichotomy x z with hxz | hxz | hxz
          · simp [hxz]
          · subst hxz
            simp only [Nat.lt_irrefl, if_false] at h1 h2 ⊢
            exact ih ys zs h1 h2
          · simp [Nat.lt_asymm hxz, hxz] at h2
        · simp [Nat.lt_asymm hxy, hxy] at h1

theorem lexLe_append_left : ∀ (w l1 l2 : List Nat),
    lexLe (w ++ l1) (w ++ l2) = lexLe l1 l2
  | [], _, _ => rfl
  | a :: w, l1, l2 => by
    simp [lexLe, lexLe_append_left w l1 l2, Nat.lt_irrefl]

theorem lexLe_single (x y : Nat) : lexLe [x] [y] = true ↔ x ≤ y := by
  simp only [lexLe]
  split_ifs with h1 h2 <;> simp <;> omega

instance : IsTotal Row rowle := ⟨fun _ _ => lexLe_total _ _⟩

instance : IsTrans Row rowle := ⟨fun _ _ _ => lexLe_trans _ _ _⟩

theorem rowle_iff_dateKey (r r' : Row) (h : groupKey r = groupKey r') :
    rowle r r' ↔ dateKeyNat r.submittedFor ≤ dateKeyNat r'.submittedFor := by
  have hc : r.country = r'.country := congrArg Prod.fst h
  have hs : r.store = r'.store := congrArg (fun p => p.2.1) h
  have he : r.employeeName = r'.employeeName := congrArg (fun p => p.2.2) h
  unfold rowle sortKey
  rw [hc, hs, he]
  have hw : ∀ d : Nat,
      encStr r'.country ++ 0 :: encStr r'.store ++ 0 :: encStr r'.employeeName
          ++ 0 :: [d]
        = (encStr r'.country ++ 0 :: encStr r'.store ++ 0
            :: encStr r'.employeeName ++ [0]) ++ [d] := by
    intro d; simp
  rw [hw, hw, lexLe_append_left, lexLe_single]

theorem mem_of_mem_dedupBy {κ : Type} [DecidableEq κ] (key : Row → κ) :
    ∀ (l : List Row) (seen : List κ) (r : Row),
      r ∈ dedupBy key l seen → r ∈ l := by
  intro l
  induction l with
  | nil => intro seen r h; simp [dedupBy] at h
  | cons a as ih =>
    intro seen r h
    simp only [dedupBy] at h
    split at h
    · exact List.mem_cons_of_mem a (ih _ r h)
    · rcases List.mem_cons.mp h with h | h
      · exact h ▸ List.mem_cons_self a as
      · exact List.mem_cons_of_mem a (ih _ r h)

theorem key_notin_seen_of_mem_dedupBy {κ : Type} [DecidableEq κ] (key : Row → κ) :
    ∀ (l : List Row) (seen : List κ) (r : Row),
      r ∈ dedupBy key l seen → key r ∉ seen := by
  intro l
  induction l with
  | nil => intro seen r h; simp [dedupBy] at h
  | cons a as ih =>
    intro seen r h
    simp only [dedupBy] at h
    split at h
    · exact ih _ r h
    · rcases List.mem_cons.mp h with h | h
      · subst h; assumption
      · have := ih _ r h
        intro hc
        exact this (List.mem_cons_of_mem _ hc)

theorem nodup_keys_dedupBy {κ : Type} [DecidableEq κ] (key : Row → κ) :
    ∀ (l : List Row) (seen : List κ), ((dedupBy key l seen).map key).Nodup := by
  intro l
  induction l with
  | nil => intro seen; simp [dedupBy]
  | cons a as ih =>
    intro seen
    simp only [dedupBy]
    split
    · exact ih _
    · simp only [List.map_cons, List.nodup_cons]
      refine ⟨?_, ih _⟩
      intro hmem
      rcases List.mem_map.mp hmem with ⟨r, hr, hkey⟩
      have := key_notin_seen_of_mem_dedupBy key as _ r hr
      exact this (hkey ▸ List.mem_cons_self _ _)

theorem dedupBy_sublist {κ : Type} [DecidableEq κ] (key : Row → κ) :
    ∀ (l : List Row) (seen : List κ), List.Sublist (dedupBy key l seen) l := by
  intro l
  induction l with
  | nil => intro seen; simp [dedupBy]
  | cons a as ih =>
    intro seen
    simp only [dedupBy]
    split
    · exact (ih _).cons a
    · exact (ih _).cons₂ a

theorem exists_key_mem_dedupBy {κ : Type} [DecidableEq κ] (key : Row → κ) :
    ∀ (l : List Row) (seen : List κ) (r' : Row),
      r' ∈ l → key r' ∉ seen →
      ∃ r ∈ dedupBy key l seen, key r = key r' := by
  intro l
  induction l with
  | nil => intro seen r' h; simp at h
  | cons a as ih =>
    intro seen r' hmem hseen
    rcases List.mem_cons.mp hmem with h | h
    · subst h
      simp only [dedupBy]
      rw [if_neg hseen]
      exact ⟨r', List.mem_cons_self _ _, rfl⟩
    · simp only [dedupBy]
      split
      · exact ih _ r' h hseen
      · by_cases hk : key r' = key a
        · exact ⟨a, List.mem_cons_self _ _, hk.symm⟩
        · have hseen2 : key r' ∉ key a :: seen := by
            intro hc
            rcases List.mem_cons.mp hc with hc | hc
            · exact hk hc
            · exact hseen hc
          obtain ⟨r, hr, hkey⟩ := ih _ r' h hseen2
          exact ⟨r, List.mem_cons_of_mem _ hr, hkey⟩

theorem dedupBy_eq_self {κ : Type} [DecidableEq κ] (key : Row → κ) :
    ∀ (l : List Row) (seen : List κ), (l.map key).Nodup →
      (∀ a ∈ l, key a ∉ seen) → dedupBy key l seen = l := by
  intro l
  induction l with
  | nil => intro seen _ _; rfl
  | cons a as ih =>
    intro seen hnd hdisj
    simp only [List.map_cons, List.nodup_cons] at hnd
    simp only [dedupBy]
    rw [if_neg (hdisj a (List.mem_cons_self _ _))]
    congr 1
    refine ih _ hnd.2 ?_
    intro b hb hc
    rcases List.mem_cons.mp hc with hc | hc
    · exact hnd.1 (hc ▸ List.mem_map_of_mem key hb)
    · exact hdisj b (List.mem_cons_of_mem _ hb) hc

theorem dedupBy_min {κ : Type} [DecidableEq κ] (key : Row → κ) :
    ∀ (l : List Row) (seen : List κ), l.Sorted rowle →
      ∀ r ∈ dedupBy key l seen, ∀ r' ∈ l, key r = key r' → rowle r r' := by
  intro l
  induction l with
  | nil => intro seen _ r h; simp [dedupBy] at h
  | cons a as ih =>
    intro seen hsorted r hr r' hr' hkey
    rcases List.sorted_cons.mp hsorted with ⟨hhead, htail⟩
    simp only [dedupBy] at hr
    split at hr
    · rcases List.mem_cons.mp hr' with h | h
      · exfalso
        have hnot := key_notin_seen_of_mem_dedupBy key as seen r hr
        subst h
        exact hnot (hkey ▸ (by assumption))
      · exact ih _ htail r hr r' h hkey
    · rcases List.mem_cons.mp hr with h | h
      · subst h
        rcases List.mem_cons.mp hr' with h | h
        · subst h; exact lexLe_refl _
        · exact hhead r' h
      · rcases List.mem_cons.mp hr' with h2 | h2
        · exfalso
          have hnot := key_notin_seen_of_mem_dedupBy key as _ r h
          subst h2
          exact hnot (hkey ▸ List.mem_cons_self _ _)
        · exact ih _ htail r h r' h2 hkey

theorem resolveAux_ok (cols : List String) :
    ∀ keys : List String,
      keys.filter (fun k => (find_column cols k).isNone) = [] →
      ∃ m, resolveColumnsAux cols keys = .ok m := by
  intro keys
  induction keys with
  | nil => exact fun _ => ⟨[], rfl⟩
  | cons k ks ih =>
    intro h
    rw [List.filter_cons] at h
    cases hf : find_column cols k with
    | none =>
      rw [hf] at h
      simp at h
    | some c =>
      rw [hf] at h
      simp only [Option.isNone_some, if_false] at h
      obtain ⟨m, hm⟩ := ih h
      exact ⟨(k, c) :: m, by simp [resolveColumnsAux, hf, hm, Except.map]⟩

theorem resolveAux_error (cols : List String) :
    ∀ (keys : List String) (k : String) (ks : List String),
      keys.filter (fun j => (find_column cols j).isNone) = k :: ks →
      resolveColumnsAux cols keys
        = .error ("Missing required column: " ++ k) := by
  intro keys
  induction keys with
  | nil => intro k ks h; simp at h
  | cons j js ih =>
    intro k ks h
    rw [List.filter_cons] at h
    cases hf : find_column cols j with
    | none =>
      rw [hf] at h
      simp only [Option.isNone_none, if_true] at h
      injection h with h1 _
      subst h1
      simp [resolveColumnsAux, hf]
    | some c =>
      rw [hf] at h
      simp only [Option.isNone_some, if_false] at h
      simp [resolveColumnsAux, hf, ih k ks h, Except.map]

/-! ## Claims -/

/-- C1 (counterexample): with both `Country` and `Entity Id` unresolvable,
the loop halts at `Country` and the surfaced error does not name
`Entity Id` — the user-facing error does *not* list all missing fields. -/
theorem C1_counterexample :
    missingColumns exTwoMissingCols = ["Country", "Entity Id"] ∧
    resolveColumns exTwoMissingCols = .error "Missing required column: Country" ∧
    mentionsField "Missing required column: Country" "Entity Id" = false :=
  ⟨by decide, by rfl, by decide⟩

/-- C1 (amended): when one or more canonical fields cannot be resolved,
processing halts with an error naming the *first* missing field in the
fixed `expected` order; with no missing field resolution succeeds.  In
particular an upload missing only `Entity Id` errors naming exactly
`Entity Id`. -/
theorem C1_first_missing_field_reported (cols : List String) :
    (∀ (k : String) (ks : List String), missingColumns cols = k :: ks →
      resolveColumns cols = .error ("Missing required column: " ++ k)) ∧
    (missingColumns cols = [] → ∃ m, resolveColumns cols = .ok m) :=
  ⟨fun k ks h => resolveAux_error cols expectedKeys k ks h,
   fun h => resolveAux_ok cols expectedKeys h⟩

/-- C1 (witness): an upload missing only `Entity Id` halts with the error
naming exactly `Entity Id`. -/
theorem C1_witness :
    missingColumns exEntityIdMissingCols = ["Entity Id"] ∧
    resolveColumns exEntityIdMissingCols
      = .error "Missing required column: Entity Id" :=
  ⟨by decide,
   (C1_first_missing_field_reported exEntityIdMissingCols).1
     "Entity Id" [] (by decide)⟩

/-- C2 (code bug): on a column of `%d/%m/%Y` dates the loop's first format
coerces everything to `NaT`; from then on the column has datetime dtype so
the remaining formats are no-ops, and every row is dropped — even though
`%d/%m/%Y` is in the format list and parses every original value.  The
spec-described behaviour (`specDateParseColumn`) parses both rows. -/
theorem C2_date_formats_after_first_are_dead :
    parseDatesColumn ["01/07/2025", "15/07/2025"] = [none, none] ∧
    (⟨'/', .numeric, .y4⟩ : FmtSpec) ∈ dateFormats ∧
    strptime ⟨'/', .numeric, .y4⟩ "01/07/2025" = some ⟨2025, 7, 1⟩ ∧
    strptime ⟨'/', .numeric, .y4⟩ "15/07/2025" = some ⟨2025, 7, 15⟩ ∧
    specDateParseColumn ["01/07/2025", "15/07/2025"]
      = [some ⟨2025, 7, 1⟩, some ⟨2025, 7, 15⟩] :=
  ⟨by decide, by decide, by decide, by decide, by decide⟩

/-- C3: sort-then-keep-first deduplication keeps at most one row per
(Country, Store, Employee Name) group (the mapped keys are nodup), keeps
only rows of the input, represents every input group, and the kept row of
a group carries the earliest `Submitted For` date of that group. -/
theorem C3_dedup_keeps_earliest (rows : List Row) :
    ((dedupRows (sortRows rows)).map groupKey).Nodup ∧
    (∀ r ∈ dedupRows (sortRows rows), r ∈ rows) ∧
    (∀ r' ∈ rows, ∃ r ∈ dedupRows (sortRows rows), groupKey r = groupKey r') ∧
    (∀ r ∈ dedupRows (sortRows rows), ∀ r' ∈ rows, groupKey r = groupKey r' →
      dateKeyNat r.submittedFor ≤ dateKeyNat r'.submittedFor) := by
  refine ⟨nodup_keys_dedupBy groupKey _ _, ?_, ?_, ?_⟩
  · intro r hr
    have h := mem_of_mem_dedupBy groupKey _ _ r hr
    simpa [sortRows] using h
  · intro r' hr'
    have h1 : r' ∈ sortRows rows := by simpa [sortRows] using hr'
    exact exists_key_mem_dedupBy groupKey _ [] r' h1 (by simp)
  · intro r hr r' hr' hk
    have h1 : r' ∈ sortRows rows := by simpa [sortRows] using hr'
    have hsorted : (sortRows rows).Sorted rowle :=
      List.sorted_insertionSort rowle rows
    have h2 : rowle r r' := dedupBy_min groupKey _ [] hsorted r hr r' h1 hk
    exact (rowle_iff_dateKey r r' hk).mp h2

/-- C3 (witness): two submissions of the same (Country, Store, Employee)
dated `01-Jul-25` and `15-Jul-25` collapse to the `01-Jul-25` record,
whose date is no later than the dropped one's. -/
theorem C3_witness :
    exKeptRow ∈ dedupRows (sortRows exDupRows) ∧
    exLateRow ∈ exDupRows ∧
    groupKey exKeptRow = groupKey exLateRow ∧
    dateKeyNat exKeptRow.submittedFor ≤ dateKeyNat exLateRow.submittedFor ∧
    dedupRows (sortRows exDupRows) = [exKeptRow] := by
  have h5 : dedupRows (sortRows exDupRows) = [exKeptRow] := by
    with_unfolding_all rfl
  have h0 : exDupRows = [exLateRow, exKeptRow] := by with_unfolding_all rfl
  have h1 : exKeptRow ∈ dedupRows (sortRows exDupRows) := by
    rw [h5]; exact List.mem_singleton_self _
  have h2 : exLateRow ∈ exDupRows := by
    rw [h0]; exact List.mem_cons_self _ _
  have h3 : groupKey exKeptRow = groupKey exLateRow := rfl
  exact ⟨h1, h2, h3,
    (C3_dedup_keeps_earliest exDupRows).2.2.2 exKeptRow h1 exLateRow h2 h3, h5⟩

/-- C4: after the full cleaning pipeline every retained record has a
non-null (parsed) `Submitted For` date, while `Result` may still be null
in a retained record. -/
theorem C4_no_null_dates_after_cleaning :
    (∀ (rows : List RawRow), ∀ r ∈ cleanedDataset rows,
      r.submittedFor.isSome = true) ∧
    (∃ r ∈ cleanedDataset exNullResultRaw, r.result = none) := by
  constructor
  · intro rows r hr
    have h1 := mem_of_mem_dedupBy groupKey _ _ r hr
    have h2 : r ∈ dropnaSubmitted (cleanRows rows) := by
      simpa [sortRows] using h1
    exact (List.mem_filter.mp h2).2
  · have h : cleanedDataset exNullResultRaw = [exNullResultRow] := by
      with_unfolding_all rfl
    exact ⟨exNullResultRow, by rw [h]; exact List.mem_singleton_self _, rfl⟩

/-- C4 (witness): the record retained from `exDupRaw` has a non-null
parsed date. -/
theorem C4_witness :
    exKeptRow ∈ cleanedDataset exDupRaw ∧
    exKeptRow.submittedFor.isSome = true := by
  have h : cleanedDataset exDupRaw = [exKeptRow] := by with_unfolding_all rfl
  have h1 : exKeptRow ∈ cleanedDataset exDupRaw := by
    rw [h]; exact List.mem_singleton_self _
  exact ⟨h1, C4_no_null_dates_after_cleaning.1 exDupRaw exKeptRow h1⟩

/-- C5: the sort-then-keep-first deduplication is idempotent. -/
theorem C5_dedup_idempotent (rows : List Row) :
    dedupRows (sortRows (dedupRows (sortRows rows)))
      = dedupRows (sortRows rows) := by
  have hsorted : (sortRows rows).Sorted rowle :=
    List.sorted_insertionSort rowle rows
  have hd : (dedupRows (sortRows rows)).Sorted rowle :=
    List.Pairwise.sublist (dedupBy_sublist groupKey _ []) hsorted
  have h1 : sortRows (dedupRows (sortRows rows)) = dedupRows (sortRows rows) :=
    hd.insertionSort_eq
  rw [h1]
  exact dedupBy_eq_self groupKey _ []
    (nodup_keys_dedupBy groupKey _ []) (by simp)

/-- C6: the filtered record set is exactly the cleaned-dataset rows whose
Country and Store are both selected; its size is the count of such rows;
an empty selection yields a zero-row set and no probability-density chart
(the empty-state render), with no failure possible. -/
theorem C6_filter_characterisation (rows : List Row)
    (countries stores : List String) (r : Row) :
    (r ∈ filteredDf rows countries stores ↔
      r ∈ rows ∧ r.country ∈ countries ∧ r.store ∈ stores) ∧
    (filteredDf rows countries stores).length
      = rows.countP (fun t => decide (t.country ∈ countries ∧ t.store ∈ stores)) ∧
    filteredDf rows [] [] = [] ∧
    pdfChartOf (filteredDf rows [] []) = none := by
  have hnil : filteredDf rows [] [] = [] := by simp [filteredDf]
  refine ⟨?_, ?_, hnil, ?_⟩
  · simp [filteredDf, List.mem_filter, and_assoc]
  · rw [List.countP_eq_length_filter, filteredDf]
    congr 1
    apply List.filter_congr
    intro x _
    simp
  · rw [hnil]; rfl

/-- C7: `Result` coercion never drops a row or halts (the cleaned list has
the input's length and the parser is total), maps non-numeric text to null
and keeps numeric text intact, and null results are excluded from the mean
and the sample variance. -/
theorem C7_to_numeric_coerce (rows : List RawRow) (others : List Row)
    (r : Row) (h : r.result = none) :
    (cleanRows rows).length = rows.length ∧
    to_numeric "abc" = none ∧
    to_numeric "70" = some 70 ∧
    to_numeric "70.5" = some (141 / 2) ∧
    nonNullResults (r :: others) = nonNullResults others ∧
    qMean (nonNullResults (r :: others)) = qMean (nonNullResults others) ∧
    sampleVar (nonNullResults (r :: others)) = sampleVar (nonNullResults others) := by
  have hnn : nonNullResults (r :: others) = nonNullResults others := by
    simp [nonNullResults, List.filterMap_cons, h]
  refine ⟨cleanRows_length rows, by with_unfolding_all rfl,
    by with_unfolding_all rfl, by with_unfolding_all rfl, hnn,
    by rw [hnn], by rw [hnn]⟩

/-- C7 (witness): a retained null-`Result` row does not change the mean of
the non-null results. -/
theorem C7_witness :
    exNullResultRow.result = none ∧
    qMean (nonNullResults (exNullResultRow :: exC8Rows))
      = qMean (nonNullResults exC8Rows) :=
  ⟨rfl, (C7_to_numeric_coerce [] exC8Rows exNullResultRow rfl).2.2.2.2.2.1⟩

set_option maxRecDepth 4000 in
/-- C8: the distribution statistics are the sample mean and sample
standard deviation of the non-null results (for `[70, 80, 90]`: mean 80
and standard deviation 10), and the density overlay is evaluated at
exactly 500 points running from the observed minimum to the observed
maximum `Result`, parameterised by those two statistics. -/
theorem C8_density_overlay (rows : List Row) (ch : PdfChart)
    (h : pdfChartOf rows = some ch) :
    qMean [70, 80, 90] = 80 ∧
    IsSampleStd [70, 80, 90] 10 ∧
    ch.xs.length = 500 ∧
    ch.xs.head? = some (listMin (nonNullResults rows)) ∧
    ch.xs.getLast? = some (listMax (nonNullResults rows)) ∧
    ch.mean = qMean (nonNullResults rows) ∧
    ch.varSample = sampleVar (nonNullResults rows) := by
  have hch : ch =
      { xs := linspace (listMin (nonNullResults rows))
                (listMax (nonNullResults rows)) 500
        mean := qMean (nonNullResults rows)
        varSample := sampleVar (nonNullResults rows) } := by
    unfold pdfChartOf at h
    by_cases hres : nonNullResults rows = []
    · rw [if_pos hres] at h; exact absurd h (by simp)
    · rw [if_neg hres] at h
      exact (Option.some_injective _ h).symm
  subst hch
  refine ⟨by norm_num [qMean], ⟨by norm_num, by norm_num [sampleVar, qMean]⟩,
    linspace_length _ _ _, linspace_head _ _ _ (by norm_num),
    linspace_last _ _ _ (by norm_num), rfl, rfl⟩

/-- C8 (witness): over filtered rows with results `[70, 80, 90]` the chart
is built, has 500 sample points, mean 80 and sample variance 100. -/
theorem C8_witness :
    pdfChartOf exC8Rows = some exC8Chart ∧
    exC8Chart.xs.length = 500 ∧
    exC8Chart.mean = qMean (nonNullResults exC8Rows) ∧
    exC8Chart.varSample = sampleVar (nonNullResults exC8Rows) := by
  have h : pdfChartOf exC8Rows = some exC8Chart := by with_unfolding_all rfl
  exact ⟨h, (C8_density_overlay exC8Rows exC8Chart h).2.2.1,
    (C8_density_overlay exC8Rows exC8Chart h).2.2.2.2.2.1,
    (C8_density_overlay exC8Rows exC8Chart h).2.2.2.2.2.2⟩

/-- C9 (counterexample): Excel workbooks are not accepted — the uploader
allows only `csv` — and the delimiter is not auto-detected: semicolon
content parsed with the default (comma) stays a single column. -/
theorem C9_counterexample :
    "xlsx" ∉ uploaderAllowedTypes ∧
    "xls" ∉ uploaderAllowedTypes ∧
    ingest defaultDelimiterIndex "a;b\nc;d" = [["a;b"], ["c;d"]] :=
  ⟨by decide, by decide, by with_unfolding_all rfl⟩

/-- C9 (amended): the program accepts one uploaded file that must be
delimited text (`.csv` only, no Excel); the delimiter is chosen by the
user among comma, semicolon, tab and pipe (default comma) and the content
is parsed with that single delimiter; a loading error is signalled when
that one parse fails. -/
theorem C9_csv_only_user_delimiter :
    uploaderAllowedTypes = ["csv"] ∧
    delimiterOptions = [",", ";", "\t", "|"] ∧
    delimiterOptions.getD defaultDelimiterIndex "?" = "," ∧
    (∀ content : String, ingest defaultDelimiterIndex content = read_csv ',' content) ∧
    ingest 1 "a;b\nc;d" = [["a", "b"], ["c", "d"]] :=
  ⟨rfl, rfl, rfl, fun _ => rfl, by with_unfolding_all rfl⟩

/-- C10: two render passes over the same cleaned dataframe that agree on
every widget except the sidebar Country/Store selection produce the same
stacked bar, store-performance, country-drilldown and store-drilldown
data; the sidebar selection reaches only the strip chart, the displayed
statistics and the probability-density chart, which are computed from the
filtered set. -/
theorem C10_sidebar_frame_effect (df : List Row) (inp inp2 : RenderInputs)
    (hbar : inp2.selectedStoresBar = inp.selectedStoresBar)
    (hperf : inp2.selectedCountryPerf = inp.selectedCountryPerf)
    (hcdrill : inp2.selectedCountry = inp.selectedCountry)
    (hsdrill : inp2.selectedStore = inp.selectedStore) :
    (render df inp2).stackedBar = (render df inp).stackedBar ∧
    (render df inp2).storePerf = (render df inp).storePerf ∧
    (render df inp2).countryDrill = (render df inp).countryDrill ∧
    (render df inp2).storeDrill = (render df inp).storeDrill ∧
    (render df inp2).strip = filteredDf df inp2.countries inp2.stores ∧
    (render df inp2).pdfChart = pdfChartOf (filteredDf df inp2.countries inp2.stores) := by
  refine ⟨?_, ?_, ?_, ?_, rfl, rfl⟩ <;>
    simp [render, hbar, hperf, hcdrill, hsdrill]

/-- C10 (witness): emptying only the sidebar selection leaves the stacked
bar data unchanged while the strip chart becomes the empty filtered set. -/
theorem C10_witness :
    exInp2.selectedStoresBar = exInp.selectedStoresBar ∧
    (render exC8Rows exInp2).stackedBar = (render exC8Rows exInp).stackedBar ∧
    (render exC8Rows exInp2).strip = filteredDf exC8Rows [] [] :=
  ⟨rfl,
   (C10_sidebar_frame_effect exC8Rows exInp exInp2 rfl rfl rfl rfl).1,
   (C10_sidebar_frame_effect exC8Rows exInp exInp2 rfl rfl rfl rfl).2.2.2.2.1⟩

end FrenchSpirit
